import Mathlib

/-!
Verification of the session-based tick-driven arcade simulation
(`internal/domain/game.go`, `internal/service/game_service.go`).

The Go code is embedded shallowly: machine integers become `Int`,
`[][]rune` boards become `List (List Char)`, the tick's random draws
become explicit per-adversary oracle values, and the repository
round-trip inside a tick (fetch, mutate, save) is modelled as a pure
function from the fetched session to the saved one.
-/

namespace GoApp

/-- `Direction` from `internal/domain/game.go`: up, down, left, right, none.
The numeric order of the Go constants (`iota`) is up=0, down=1, left=2,
right=3, none=4. -/
inductive Direction where
  | up
  | down
  | left
  | right
  | none
deriving DecidableEq, Repr

/-- `Position` from `internal/domain/game.go`: an integer (X, Y) pair. -/
structure Position where
  x : Int
  y : Int
deriving DecidableEq, Repr

/-- `Position.Move` from `internal/domain/game.go`: offset by one cell in
the given direction; `none` leaves the position unchanged. -/
def Position.Move (p : Position) (dir : Direction) : Position :=
  match dir with
  | Direction.up => { p with y := p.y - 1 }
  | Direction.down => { p with y := p.y + 1 }
  | Direction.left => { p with x := p.x - 1 }
  | Direction.right => { p with x := p.x + 1 }
  | Direction.none => p

/-- `Position.Equals` from `internal/domain/game.go`. -/
def Position.Equals (p other : Position) : Bool :=
  p.x == other.x && p.y == other.y

/-- Modelled from the spec: the opposite heading used by the spec's
testable property "Move(Move(p,h), opposite(h)) == p" — swaps up with
down and left with right, and maps none to none.  (No such function
exists in the Go source; it is part of the property's statement.) -/
def opposite : Direction → Direction
  | Direction.up => Direction.down
  | Direction.down => Direction.up
  | Direction.left => Direction.right
  | Direction.right => Direction.left
  | Direction.none => Direction.none

/-- `Ghost` from `internal/domain/game.go`. -/
structure Ghost where
  position : Position
  direction : Direction
deriving DecidableEq, Repr

/-- `Game` from `internal/domain/game.go`.  Timestamps are abstract
clock readings, modelled as naturals. -/
structure Game where
  id : String
  board : List (List Char)
  player : Position
  ghosts : List Ghost
  score : Int
  dotsLeft : Int
  gameOver : Bool
  playerDir : Direction
  createdAt : Nat
  updatedAt : Nat
deriving DecidableEq, Repr

/-- Reading `Board[y][x]`.  The Go code only indexes after a bounds
check against the fixed 20 by 15 dimensions, on boards built with
exactly those dimensions; out-of-range reads (which cannot occur there)
default to the wall character. -/
def boardGet (b : List (List Char)) (y x : Int) : Char :=
  (b.getD y.toNat []).getD x.toNat '#'

/-- Writing `Board[y][x] = c` (out-of-range writes, which cannot occur
in the Go code, are a no-op, matching `List.set`). -/
def boardSet (b : List (List Char)) (y x : Int) (c : Char) : List (List Char) :=
  b.set y.toNat ((b.getD y.toNat []).set x.toNat c)

/-- The body of `Game.IsValidPosition` from `internal/domain/game.go`,
factored over the board it reads: in bounds and not a wall. -/
def isPassable (board : List (List Char)) (pos : Position) (width height : Int) : Bool :=
  if pos.x < 0 || pos.x ≥ width || pos.y < 0 || pos.y ≥ height then false
  else boardGet board pos.y pos.x != '#'

/-- `Game.IsValidPosition` from `internal/domain/game.go`: in bounds and
not a wall. -/
def Game.IsValidPosition (g : Game) (pos : Position) (width height : Int) : Bool :=
  isPassable g.board pos width height

/-- `GameWidth` from `internal/service/game_service.go`. -/
def GameWidth : Int := 20

/-- `GameHeight` from `internal/service/game_service.go`. -/
def GameHeight : Int := 15

/-- `ScorePerDot` from `internal/service/game_service.go`. -/
def ScorePerDot : Int := 10

/-- `abs` from `internal/service/game_service.go`. -/
def absInt (x : Int) : Int :=
  if x < 0 then -x else x

end GoApp

namespace GoApp

/-- The `Direction(s.rng.Intn(4))` conversion in `moveGhosts`: the Go
`Direction` constants are up=0, down=1, left=2, right=3. -/
def directionOfFin (n : Fin 4) : Direction :=
  if n.val = 0 then Direction.up
  else if n.val = 1 then Direction.down
  else if n.val = 2 then Direction.left
  else Direction.right

/-- The random draws one adversary step consumes in `moveGhosts`:
`roll` is the `Intn(100)` draw deciding erratic behaviour, `randDir`
the `Intn(4)` erratic direction draw, and `shuffled` the shuffled
direction list used by the fallback scan. -/
structure GhostRand where
  roll : Nat
  randDir : Fin 4
  shuffled : List Direction
deriving DecidableEq, Repr

/-- The chase heuristic inside `moveGhosts`
(`internal/service/game_service.go`): move along the axis of larger
absolute difference to the player, ties to the vertical axis, sign
towards the player. -/
def chaseDirection (player gpos : Position) : Direction :=
  let dx := player.x - gpos.x
  let dy := player.y - gpos.y
  if absInt dx > absInt dy then
    if dx > 0 then Direction.right else Direction.left
  else
    if dy > 0 then Direction.down else Direction.up

/-- The fallback scan in `moveGhosts`: try the (shuffled) directions in
order and keep the first passable one; if none is passable the ghost
does not move. -/
def tryDirections (board : List (List Char)) (ghost : Ghost) :
    List Direction → Ghost
  | [] => ghost
  | d :: ds =>
    let newPos := ghost.position.Move d
    if isPassable board newPos GameWidth GameHeight then
      { position := newPos, direction := d }
    else tryDirections board ghost ds

/-- One adversary's step in `moveGhosts`
(`internal/service/game_service.go`): with `roll < 30` pick a random
direction, otherwise chase the player; commit the move only if the
destination is passable, falling back to the shuffled scan otherwise. -/
def moveGhost (board : List (List Char)) (player : Position) (r : GhostRand)
    (ghost : Ghost) : Ghost :=
  let dir :=
    if r.roll < 30 then directionOfFin r.randDir
    else chaseDirection player ghost.position
  let newPos := ghost.position.Move dir
  if isPassable board newPos GameWidth GameHeight then
    { position := newPos, direction := dir }
  else
    tryDirections board ghost r.shuffled

/-- The loop body of `moveGhosts`, ghost `i` consuming the `i`-th
random draw.  The Go loop mutates each ghost in place; a ghost's step
reads only the board, the player position and that ghost's own fields,
so the loop is a position-indexed map. -/
def moveGhostsAux (board : List (List Char)) (player : Position)
    (rands : Nat → GhostRand) (i : Nat) : List Ghost → List Ghost
  | [] => []
  | g :: gs => moveGhost board player (rands i) g ::
      moveGhostsAux board player rands (i + 1) gs

/-- `moveGhosts` from `internal/service/game_service.go`. -/
def moveGhosts (game : Game) (rands : Nat → GhostRand) : Game :=
  { game with ghosts := moveGhostsAux game.board game.player rands 0 game.ghosts }

/-- `movePlayer` from `internal/service/game_service.go`: if a heading
is pending and its destination is valid, commit it and collect any dot
there; otherwise leave the game unchanged. -/
def movePlayer (game : Game) : Game :=
  if game.playerDir == Direction.none then game
  else
    let newPos := game.player.Move game.playerDir
    if game.IsValidPosition newPos GameWidth GameHeight then
      let g := { game with player := newPos }
      if boardGet g.board g.player.y g.player.x == '.' then
        { g with
          board := boardSet g.board g.player.y g.player.x ' ',
          score := g.score + ScorePerDot,
          dotsLeft := g.dotsLeft - 1 }
      else g
    else game

/-- `checkCollisions` from `internal/service/game_service.go`: if the
player coincides with any ghost, set the game-over flag. -/
def checkCollisions (game : Game) : Game :=
  if game.ghosts.any (fun gh => game.player.Equals gh.position) then
    { game with gameOver := true }
  else game

/-- `gameTick` from `internal/service/game_service.go`, as a pure
function from the fetched session to the saved one.  The Boolean is
the continue flag: the Go function returns the error "game ended" on
the terminal entry check (which makes `runGameLoop` stop), and `nil`
after running the movement steps and saving; `now` is the clock value
written to `UpdatedAt`. -/
def gameTick (game : Game) (rands : Nat → GhostRand) (now : Nat) : Game × Bool :=
  if game.gameOver || game.dotsLeft == 0 then (game, false)
  else
    let g1 := movePlayer game
    let g2 := moveGhosts g1 rands
    let g3 := checkCollisions g2
    ({ g3 with updatedAt := now }, true)

/-- `SetPlayerDirection` from `internal/service/game_service.go`,
restricted to the found-session path: set the pending heading and
stamp `UpdatedAt` with the current clock value. -/
def SetPlayerDirection (game : Game) (dir : Direction) (now : Nat) : Game :=
  { game with playerDir := dir, updatedAt := now }

/-!
Loop-supervisor model.  `gameService` keeps `gameLoops :
map[string]context.CancelFunc` guarded by `gameLoopMu`; each
`runGameLoop` goroutine is a task.  A task is `alive` until its
goroutine returns and `cancelled` once its context's cancel function
has been called (cancellation is a signal the goroutine reacts to at
its next select, so a cancelled task may still be alive).  The mutex
makes each registry operation one atomic step.
-/

/-- One `runGameLoop` goroutine instance: the session it ticks, whether
its context has been cancelled, and whether it is still running. -/
structure LoopTask where
  sid : String
  cancelled : Bool
  alive : Bool
deriving DecidableEq, Repr

/-- The supervisor state: the `gameLoops` registry (an association list
mapping a session id to the index of the task whose cancel function is
registered) and all tasks ever spawned, indexed by spawn order. -/
structure Supervisor where
  gameLoops : List (String × Nat)
  tasks : List LoopTask
deriving DecidableEq, Repr

/-- Look up the registered task for a session id, as
`s.gameLoops[sessionID]`. -/
def lookupLoop (s : Supervisor) (id : String) : Option Nat :=
  (s.gameLoops.find? (fun p => p.1 == id)).map (fun p => p.2)

/-- Calling the cancel function of task `t`. -/
def cancelTask (tasks : List LoopTask) (t : Nat) : List LoopTask :=
  match tasks.get? t with
  | some task => tasks.set t { task with cancelled := true }
  | Option.none => tasks

/-- `StartGameLoop` from `internal/service/game_service.go` (registry
effect, existing-session path): under the mutex, cancel any registered
loop for the id, register the new cancel function, then spawn the new
goroutine. -/
def startLoop (s : Supervisor) (id : String) : Supervisor :=
  let tasks1 :=
    match lookupLoop s id with
    | some t => cancelTask s.tasks t
    | Option.none => s.tasks
  { gameLoops := (id, tasks1.length) :: s.gameLoops.filter (fun p => p.1 != id),
    tasks := tasks1 ++ [{ sid := id, cancelled := false, alive := true }] }

/-- `stopGameLoop` from `internal/service/game_service.go`: if a cancel
function is registered for the id, call it and remove the entry;
otherwise do nothing. -/
def stopLoop (s : Supervisor) (id : String) : Supervisor :=
  match lookupLoop s id with
  | some t =>
    { gameLoops := s.gameLoops.filter (fun p => p.1 != id),
      tasks := cancelTask s.tasks t }
  | Option.none => s

/-- A task exiting: `runGameLoop` returns (after cancellation or a tick
error) and its deferred `cleanupGameLoop` deletes the registry entry
for its session id — unconditionally, whoever that entry belongs to. -/
def exitLoop (s : Supervisor) (t : Nat) : Supervisor :=
  match s.tasks.get? t with
  | some task =>
    { gameLoops := s.gameLoops.filter (fun p => p.1 != task.sid),
      tasks := s.tasks.set t { task with alive := false } }
  | Option.none => s

/-- The supervisor step relation: the atomic registry transitions of
`StartGameLoop`, `stopGameLoop` and a loop task's exit. -/
inductive SupStep : Supervisor → Supervisor → Prop where
  | start (s : Supervisor) (id : String) : SupStep s (startLoop s id)
  | stop (s : Supervisor) (id : String) : SupStep s (stopLoop s id)
  | exit (s : Supervisor) (t : Nat) (task : LoopTask)
      (hget : s.tasks.get? t = some task) (halive : task.alive = true) :
      SupStep s (exitLoop s t)

/-- States reachable from the empty supervisor (fresh `gameService`). -/
inductive SupReachable : Supervisor → Prop where
  | init : SupReachable { gameLoops := [], tasks := [] }
  | step {s s' : Supervisor} : SupReachable s → SupStep s s' → SupReachable s'

/-- The number of loop tasks for session `id` that are running and not
cancelled — loops that will keep ticking the session. -/
def runningLoops (s : Supervisor) (id : String) : Nat :=
  (s.tasks.filter (fun t => t.sid == id && t.alive && !t.cancelled)).length

/-!
Concrete sessions used as test inputs.  Boards are full 20 by 15
grids, as `initializeGame` always builds.
-/

/-- Build a board from 20-character template rows, as the board loop in
`initializeGame` does for full-width rows. -/
def mkBoard (rows : List String) : List (List Char) :=
  rows.map (fun r => r.toList)

/-- A 15-row board whose only non-wall cells are (1,1) (empty) and
(2,1) (a dot). -/
def oneDotBoard : List (List Char) :=
  mkBoard
    ["####################",
     "# .#################",
     "####################",
     "####################",
     "####################",
     "####################",
     "####################",
     "####################",
     "####################",
     "####################",
     "####################",
     "####################",
     "####################",
     "####################",
     "####################"]

/-- A session about to consume its last dot: player at (1,1) heading
right towards the dot at (2,1), no adversaries. -/
def lastDotGame : Game :=
  { id := "s1", board := oneDotBoard, player := { x := 1, y := 1 },
    ghosts := [], score := 0, dotsLeft := 1, gameOver := false,
    playerDir := Direction.right, createdAt := 0, updatedAt := 0 }

/-- A session already in the terminal state (`GameOver = true`). -/
def endedGame : Game :=
  { id := "s2", board := oneDotBoard, player := { x := 1, y := 1 },
    ghosts := [{ position := { x := 2, y := 1 }, direction := Direction.left }],
    score := 40, dotsLeft := 1, gameOver := true,
    playerDir := Direction.left, createdAt := 3, updatedAt := 5 }

/-- A fixed random oracle: never erratic, empty fallback list. -/
def chaseRand : GhostRand :=
  { roll := 99, randDir := 0, shuffled := [] }

/-! ### List access lemmas -/

theorem getD_set_self {α : Type} (l : List α) (n : Nat) (a d : α)
    (h : n < l.length) : (l.set n a).getD n d = a := by
  rw [List.getD_eq_getElem _ _ (by simpa using h)]
  simp [List.getElem_set]

theorem getD_set_other {α : Type} (l : List α) (m n : Nat) (a d : α)
    (h : m ≠ n) : (l.set m a).getD n d = l.getD n d := by
  by_cases hn : n < l.length
  · rw [List.getD_eq_getElem _ _ (by simpa using hn), List.getD_eq_getElem _ _ hn]
    simp [List.getElem_set, h]
  · push_neg at hn
    rw [List.getD_eq_default _ _ (by simpa using hn), List.getD_eq_default _ _ hn]

theorem lt_of_getD_ne_default {α : Type} (l : List α) (n : Nat) (d : α)
    (h : l.getD n d ≠ d) : n < l.length := by
  by_contra hn
  push_neg at hn
  exact h (List.getD_eq_default _ _ hn)

/-- Reading back the cell just written. -/
theorem boardGet_boardSet_self (b : List (List Char)) (y x : Int) (c : Char)
    (h : boardGet b y x ≠ '#') : boardGet (boardSet b y x c) y x = c := by
  unfold boardGet at h
  have hy : y.toNat < b.length := by
    by_contra hy
    push_neg at hy
    rw [List.getD_eq_default _ _ hy] at h
    exact h rfl
  have hx : x.toNat < (b.getD y.toNat []).length := lt_of_getD_ne_default _ _ _ h
  unfold boardGet boardSet
  rw [getD_set_self _ _ _ _ hy, getD_set_self _ _ _ _ hx]

/-- Writing one cell either leaves a read unchanged or returns the
written value. -/
theorem boardGet_boardSet_or (b : List (List Char)) (ys xs y x : Int) (c : Char) :
    boardGet (boardSet b ys xs c) y x = boardGet b y x ∨
    boardGet (boardSet b ys xs c) y x = c := by
  unfold boardGet boardSet
  by_cases hy : ys.toNat = y.toNat
  · by_cases hly : ys.toNat < b.length
    · rw [hy] at hly ⊢
      rw [getD_set_self b y.toNat _ [] hly]
      by_cases hx : xs.toNat = x.toNat
      · by_cases hlx : xs.toNat < (b.getD y.toNat []).length
        · rw [hx] at hlx ⊢
          right
          exact getD_set_self _ x.toNat c '#' hlx
        · push_neg at hlx
          rw [List.set_eq_of_length_le hlx]
          left
          rfl
      · left
        rw [getD_set_other _ xs.toNat x.toNat c '#' hx]
    · push_neg at hly
      rw [List.set_eq_of_length_le hly]
      left
      rfl
  · left
    rw [getD_set_other b ys.toNat y.toNat _ [] hy]

/-- Consuming a dot (writing an empty cell) never turns a passable
position into a wall. -/
theorem isPassable_boardSet_space (b : List (List Char)) (pos : Position)
    (y x width height : Int) (hp : isPassable b pos width height = true) :
    isPassable (boardSet b y x ' ') pos width height = true := by
  unfold isPassable at hp ⊢
  split at hp
  · exact absurd hp (by simp)
  · next hcond =>
    rw [if_neg hcond]
    have hold : boardGet b pos.y pos.x ≠ '#' := by
      simpa [bne_iff_ne] using hp
    rcases boardGet_boardSet_or b y x pos.y pos.x ' ' with heq | heq <;>
      simp [bne_iff_ne, heq, hold]

/-! ### Frame lemmas for the tick's phases -/

theorem moveGhosts_board (g : Game) (r : Nat → GhostRand) :
    (moveGhosts g r).board = g.board := rfl

theorem moveGhosts_player (g : Game) (r : Nat → GhostRand) :
    (moveGhosts g r).player = g.player := rfl

theorem moveGhosts_score (g : Game) (r : Nat → GhostRand) :
    (moveGhosts g r).score = g.score := rfl

theorem moveGhosts_dotsLeft (g : Game) (r : Nat → GhostRand) :
    (moveGhosts g r).dotsLeft = g.dotsLeft := rfl

theorem moveGhosts_gameOver (g : Game) (r : Nat → GhostRand) :
    (moveGhosts g r).gameOver = g.gameOver := rfl

theorem checkCollisions_board (g : Game) : (checkCollisions g).board = g.board := by
  unfold checkCollisions
  split <;> rfl

theorem checkCollisions_player (g : Game) : (checkCollisions g).player = g.player := by
  unfold checkCollisions
  split <;> rfl

theorem checkCollisions_ghosts (g : Game) : (checkCollisions g).ghosts = g.ghosts := by
  unfold checkCollisions
  split <;> rfl

theorem checkCollisions_score (g : Game) : (checkCollisions g).score = g.score := by
  unfold checkCollisions
  split <;> rfl

theorem checkCollisions_dotsLeft (g : Game) :
    (checkCollisions g).dotsLeft = g.dotsLeft := by
  unfold checkCollisions
  split <;> rfl

theorem movePlayer_ghosts (g : Game) : (movePlayer g).ghosts = g.ghosts := by
  unfold movePlayer
  split
  · rfl
  · dsimp only
    split
    · split <;> rfl
    · rfl

theorem movePlayer_gameOver (g : Game) : (movePlayer g).gameOver = g.gameOver := by
  unfold movePlayer
  split
  · rfl
  · dsimp only
    split
    · split <;> rfl
    · rfl

theorem movePlayer_score_le (g : Game) : g.score ≤ (movePlayer g).score := by
  unfold movePlayer
  split
  · exact le_refl _
  · dsimp only
    split
    · split
      · simp [ScorePerDot]
      · exact le_refl _
    · exact le_refl _

theorem movePlayer_dotsLeft_le (g : Game) : (movePlayer g).dotsLeft ≤ g.dotsLeft := by
  unfold movePlayer
  split
  · exact le_refl _
  · dsimp only
    split
    · split
      · simp
      · exact le_refl _
    · exact le_refl _

/-! ### Claim theorems -/

/-- C9: for every position p and heading h,
Move(Move(p, h), opposite(h)) == p, where opposite swaps up with down
and left with right and maps none to none. -/
theorem move_then_opposite_move (p : Position) (d : Direction) :
    (p.Move d).Move (opposite d) = p := by
  cases p
  cases d <;> simp [Position.Move, opposite]

/-- C8: `IsValidPosition` (the spec's IsPassable) answers true exactly
for in-bounds positions whose cell is not a wall; every position
outside [0,width) x [0,height) gets the normal answer false, with no
failure, and an in-bounds position gets false exactly when its cell is
the wall character and true when it is a dot or empty cell. -/
theorem isValidPosition_characterisation (g : Game) (pos : Position)
    (width height : Int) :
    g.IsValidPosition pos width height = true ↔
      0 ≤ pos.x ∧ pos.x < width ∧ 0 ≤ pos.y ∧ pos.y < height ∧
      boardGet g.board pos.y pos.x ≠ '#' := by
  unfold Game.IsValidPosition isPassable
  split
  · next h =>
    simp only [Bool.false_eq_true, false_iff]
    simp only [Bool.or_eq_true, decide_eq_true_eq] at h
    intro hc
    rcases hc with ⟨h1, h2, h3, h4, _⟩
    omega
  · next h =>
    simp only [Bool.or_eq_true, decide_eq_true_eq, not_or] at h
    push_neg at h
    simp only [bne_iff_ne, ne_eq, iff_def]
    constructor
    · intro hw
      exact ⟨by omega, by omega, by omega, by omega, hw⟩
    · intro hc
      exact hc.2.2.2.2

/-- C4: the chase step's heading lies along the axis of larger
absolute difference to the player (dx = player.x - ghost.x,
dy = player.y - ghost.y), exact ties going to the vertical axis, with
the sign pointing towards the player: right iff the horizontal axis
wins and dx > 0, left iff it wins and dx <= 0, down iff the vertical
axis wins (including ties) and dy > 0, up iff it wins and dy <= 0. -/
theorem chaseDirection_characterisation (p g : Position) :
    (chaseDirection p g = Direction.right ↔
      absInt (p.x - g.x) > absInt (p.y - g.y) ∧ p.x - g.x > 0) ∧
    (chaseDirection p g = Direction.left ↔
      absInt (p.x - g.x) > absInt (p.y - g.y) ∧ ¬p.x - g.x > 0) ∧
    (chaseDirection p g = Direction.down ↔
      absInt (p.x - g.x) ≤ absInt (p.y - g.y) ∧ p.y - g.y > 0) ∧
    (chaseDirection p g = Direction.up ↔
      absInt (p.x - g.x) ≤ absInt (p.y - g.y) ∧ ¬p.y - g.y > 0) := by
  unfold chaseDirection
  dsimp only
  split_ifs with h1 h2 h3 <;> simp_all

/-- C7 counterexample: the claim lists the timestamps among the fields
SetHeading leaves unchanged, but `SetPlayerDirection` stamps the
session's UpdatedAt with the current clock value: at clock value 1 the
stored UpdatedAt (0) changes. -/
theorem setPlayerDirection_changes_updatedAt :
    (SetPlayerDirection lastDotGame Direction.up 1).updatedAt ≠
      lastDotGame.updatedAt := by
  decide

/-- C7 amended: for every existing session, SetHeading mutates only
the player's pending heading and the updated-at timestamp; the board,
player position, adversary list, score, remaining-consumables count,
terminal flag and created-at timestamp are unchanged. -/
theorem setPlayerDirection_frame (game : Game) (dir : Direction) (now : Nat) :
    (SetPlayerDirection game dir now).id = game.id ∧
    (SetPlayerDirection game dir now).board = game.board ∧
    (SetPlayerDirection game dir now).player = game.player ∧
    (SetPlayerDirection game dir now).ghosts = game.ghosts ∧
    (SetPlayerDirection game dir now).score = game.score ∧
    (SetPlayerDirection game dir now).dotsLeft = game.dotsLeft ∧
    (SetPlayerDirection game dir now).gameOver = game.gameOver ∧
    (SetPlayerDirection game dir now).createdAt = game.createdAt ∧
    (SetPlayerDirection game dir now).playerDir = dir ∧
    (SetPlayerDirection game dir now).updatedAt = now := by
  exact ⟨rfl, rfl, rfl, rfl, rfl, rfl, rfl, rfl, rfl, rfl⟩

/-- C2: a Tick on a session whose terminal flag is set or whose
remaining-consumables count is 0 returns the session completely
unchanged, every field included, together with continue = false. -/
theorem tick_terminal_unchanged (game : Game) (rands : Nat → GhostRand)
    (now : Nat) (h : game.gameOver = true ∨ game.dotsLeft = 0) :
    gameTick game rands now = (game, false) := by
  unfold gameTick
  rcases h with h | h <;> simp [h]

/-- C2 witness: ticking the concrete ended session returns it
unchanged with continue = false. -/
theorem tick_terminal_unchanged_witness :
    gameTick endedGame (fun _ => chaseRand) 7 = (endedGame, false) :=
  tick_terminal_unchanged endedGame (fun _ => chaseRand) 7 (Or.inl (by decide))

/-- C1 counterexample: the claim says the continue flag equals
!terminal && remaining>0 on the post-tick state, so a tick consuming
the last dot would itself return continue = false; on the concrete
session about to eat its last dot the movement steps run
(terminal = false, remaining = 1 > 0), the post-tick state has
remaining = 0 and terminal = false — the claimed flag would be false —
yet the tick returns continue = true. -/
theorem tick_continue_post_state_cex :
    lastDotGame.gameOver = false ∧ lastDotGame.dotsLeft > 0 ∧
    (gameTick lastDotGame (fun _ => chaseRand) 7).1.gameOver = false ∧
    (gameTick lastDotGame (fun _ => chaseRand) 7).1.dotsLeft = 0 ∧
    (gameTick lastDotGame (fun _ => chaseRand) 7).2 = true := by
  exact ⟨by decide, by decide, by decide, by decide, by decide⟩

/-- C1 amended: the continue flag returned by Tick equals
!terminal && remaining-nonzero evaluated on the PRE-tick state (the
entry check); a tick in which an adversary collision sets the terminal
flag, or in which the last dot is consumed, itself still returns
continue = true, and it is the next tick that observes the post state
and returns continue = false. -/
theorem tick_continue_eq_entry_check (game : Game) (rands : Nat → GhostRand)
    (now : Nat) :
    (gameTick game rands now).2 = (!game.gameOver && !(game.dotsLeft == 0)) := by
  unfold gameTick
  cases hgo : game.gameOver <;> cases hdl : game.dotsLeft == 0 <;>
    simp [hgo, hdl]

/-- C6: across every Tick the score is non-decreasing, the
remaining-consumables count is non-increasing, and the terminal flag
never goes from true back to false (Boolean implication
old gameOver -> new gameOver, written with !/||). -/
theorem tick_monotone (game : Game) (rands : Nat → GhostRand) (now : Nat) :
    game.score ≤ (gameTick game rands now).1.score ∧
    (gameTick game rands now).1.dotsLeft ≤ game.dotsLeft ∧
    (!game.gameOver || (gameTick game rands now).1.gameOver) = true := by
  unfold gameTick
  cases hgo : game.gameOver
  · cases hdl : game.dotsLeft == 0
    · simp only [hgo, hdl, Bool.or_self, Bool.false_eq_true, if_false]
      refine ⟨?_, ?_, by simp⟩
      · calc game.score ≤ (movePlayer game).score := movePlayer_score_le game
          _ = (moveGhosts (movePlayer game) rands).score :=
            (moveGhosts_score _ _).symm
          _ = (checkCollisions (moveGhosts (movePlayer game) rands)).score :=
            (checkCollisions_score _).symm
      · calc (checkCollisions (moveGhosts (movePlayer game) rands)).dotsLeft
            = (moveGhosts (movePlayer game) rands).dotsLeft :=
              checkCollisions_dotsLeft _
          _ = (movePlayer game).dotsLeft := moveGhosts_dotsLeft _ _
          _ ≤ game.dotsLeft := movePlayer_dotsLeft_le game
    · simp [hgo, hdl]
  · simp [hgo]

/-- When a heading is pending, its destination valid and holding a
dot, `movePlayer` commits the move, clears the dot, adds the per-dot
reward and decrements the remaining count. -/
theorem movePlayer_eats (game : Game)
    (hdir : game.playerDir ≠ Direction.none)
    (hvalid : game.IsValidPosition (game.player.Move game.playerDir)
      GameWidth GameHeight = true)
    (hdot : boardGet game.board (game.player.Move game.playerDir).y
      (game.player.Move game.playerDir).x = '.') :
    movePlayer game =
      { game with
        player := game.player.Move game.playerDir,
        board := boardSet game.board (game.player.Move game.playerDir).y
          (game.player.Move game.playerDir).x ' ',
        score := game.score + ScorePerDot,
        dotsLeft := game.dotsLeft - 1 } := by
  unfold movePlayer
  rw [if_neg (show ¬(game.playerDir == Direction.none) = true by
    simpa using hdir)]
  rw [if_pos hvalid]
  rw [if_pos (show (boardGet game.board (game.player.Move game.playerDir).y
      (game.player.Move game.playerDir).x == '.') = true by
    simp [hdot])]

/-- C3: a tick whose pending heading leads to a passable dot cell
decreases the remaining-consumables count by exactly 1, increases the
score by exactly the per-dot reward (which is 10), and leaves that
cell empty, no longer a dot, for every subsequent read. -/
theorem tick_eats_dot (game : Game) (rands : Nat → GhostRand) (now : Nat)
    (hgo : game.gameOver = false) (hdl : game.dotsLeft ≠ 0)
    (hdir : game.playerDir ≠ Direction.none)
    (hvalid : game.IsValidPosition (game.player.Move game.playerDir)
      GameWidth GameHeight = true)
    (hdot : boardGet game.board (game.player.Move game.playerDir).y
      (game.player.Move game.playerDir).x = '.') :
    (gameTick game rands now).1.dotsLeft = game.dotsLeft - 1 ∧
    (gameTick game rands now).1.score = game.score + ScorePerDot ∧
    ScorePerDot = 10 ∧
    boardGet (gameTick game rands now).1.board
      (game.player.Move game.playerDir).y
      (game.player.Move game.playerDir).x = ' ' := by
  unfold gameTick
  rw [if_neg (show ¬(game.gameOver || game.dotsLeft == 0) = true by
    simp [hgo, hdl])]
  rw [movePlayer_eats game hdir hvalid hdot]
  refine ⟨?_, ?_, rfl, ?_⟩
  · rw [show (∀ x : Game, ({ x with updatedAt := now } : Game).dotsLeft
      = x.dotsLeft) from fun x => rfl, checkCollisions_dotsLeft,
      moveGhosts_dotsLeft]
  · rw [show (∀ x : Game, ({ x with updatedAt := now } : Game).score
      = x.score) from fun x => rfl, checkCollisions_score, moveGhosts_score]
  · rw [show (∀ x : Game, ({ x with updatedAt := now } : Game).board
      = x.board) from fun x => rfl, checkCollisions_board, moveGhosts_board]
    exact boardGet_boardSet_self _ _ _ _ (by rw [hdot]; decide)

/-- C3 witness: the session about to eat its last dot does so on a
concrete tick. -/
theorem tick_eats_dot_witness :
    (gameTick lastDotGame (fun _ => chaseRand) 7).1.dotsLeft =
      lastDotGame.dotsLeft - 1 ∧
    (gameTick lastDotGame (fun _ => chaseRand) 7).1.score =
      lastDotGame.score + ScorePerDot ∧
    ScorePerDot = 10 ∧
    boardGet (gameTick lastDotGame (fun _ => chaseRand) 7).1.board
      (lastDotGame.player.Move lastDotGame.playerDir).y
      (lastDotGame.player.Move lastDotGame.playerDir).x = ' ' :=
  tick_eats_dot lastDotGame (fun _ => chaseRand) 7 (by decide) (by decide)
    (by decide) (by decide) (by decide)

/-! ### Loop supervisor: the supersede-then-exit trace -/

/-- The state after: StartLoop("g"); StartLoop("g") (supersedes,
cancelling task 0); task 0 observes its cancellation and exits, its
deferred cleanup deleting whatever registry entry "g" currently has —
task 1's; StartLoop("g") again, which now finds nothing registered to
cancel. -/
def loopBugState : Supervisor :=
  startLoop
    (exitLoop (startLoop (startLoop { gameLoops := [], tasks := [] } "g") "g") 0)
    "g"

/-- C5 (code bug): `loopBugState` is reachable under the supervisor's
own steps, yet it has two running, never-cancelled loop tasks for the
one session id "g" — `cleanupGameLoop` deletes the registry entry for
its session id unconditionally, so a superseded task's deferred
cleanup deregisters the superseding task's cancel handle, and the next
StartGameLoop stacks a fresh loop on top of the still-running one. -/
theorem startLoop_supersede_leak :
    SupReachable loopBugState ∧ runningLoops loopBugState "g" = 2 := by
  constructor
  · have h0 : SupReachable { gameLoops := [], tasks := [] } := SupReachable.init
    have h1 := SupReachable.step h0
      (SupStep.start { gameLoops := [], tasks := [] } "g")
    have h2 := SupReachable.step h1
      (SupStep.start (startLoop { gameLoops := [], tasks := [] } "g") "g")
    have h3 := SupReachable.step h2
      (SupStep.exit
        (startLoop (startLoop { gameLoops := [], tasks := [] } "g") "g") 0
        { sid := "g", cancelled := true, alive := true } (by decide) rfl)
    exact SupReachable.step h3
      (SupStep.start
        (exitLoop
          (startLoop (startLoop { gameLoops := [], tasks := [] } "g") "g") 0)
        "g")
  · decide

/-! ### Passability preservation (C10) -/

theorem tryDirections_passable (board : List (List Char)) (gh : Ghost)
    (ds : List Direction)
    (h : isPassable board gh.position GameWidth GameHeight = true) :
    isPassable board (tryDirections board gh ds).position
      GameWidth GameHeight = true := by
  induction ds with
  | nil => simpa [tryDirections] using h
  | cons d ds ih =>
    unfold tryDirections
    dsimp only
    split
    · next hp => simpa using hp
    · exact ih

theorem moveGhost_passable (board : List (List Char)) (player : Position)
    (r : GhostRand) (gh : Ghost)
    (h : isPassable board gh.position GameWidth GameHeight = true) :
    isPassable board (moveGhost board player r gh).position
      GameWidth GameHeight = true := by
  unfold moveGhost
  dsimp only
  split
  · split
    · next hp2 => simpa using hp2
    · exact tryDirections_passable board gh r.shuffled h
  · split
    · next hp2 => simpa using hp2
    · exact tryDirections_passable board gh r.shuffled h

theorem moveGhostsAux_passable (board : List (List Char)) (player : Position)
    (rands : Nat → GhostRand) (i : Nat) (gs : List Ghost)
    (h : ∀ gh ∈ gs, isPassable board gh.position GameWidth GameHeight = true) :
    ∀ gh ∈ moveGhostsAux board player rands i gs,
      isPassable board gh.position GameWidth GameHeight = true := by
  induction gs generalizing i with
  | nil =>
    intro gh hgh
    simp [moveGhostsAux] at hgh
  | cons g gs ih =>
    intro gh hgh
    unfold moveGhostsAux at hgh
    rcases List.mem_cons.mp hgh with h1 | h1
    · rw [h1]
      exact moveGhost_passable board player (rands i) g
        (h g (List.mem_cons_self g gs))
    · exact ih (i + 1) (fun gh2 hm => h gh2 (List.mem_cons_of_mem g hm)) gh h1

theorem movePlayer_player_passable (game : Game)
    (h : isPassable game.board game.player GameWidth GameHeight = true) :
    isPassable (movePlayer game).board (movePlayer game).player
      GameWidth GameHeight = true := by
  unfold movePlayer
  split
  · exact h
  · dsimp only
    split
    · next hvalid =>
      split
      · exact isPassable_boardSet_space _ _ _ _ _ _ hvalid
      · exact hvalid
    · exact h

theorem movePlayer_board_passable (game : Game) (pos : Position)
    (h : isPassable game.board pos GameWidth GameHeight = true) :
    isPassable (movePlayer game).board pos GameWidth GameHeight = true := by
  unfold movePlayer
  split
  · exact h
  · dsimp only
    split
    · split
      · exact isPassable_boardSet_space _ _ _ _ _ _ h
      · exact h
    · exact h

/-- C10: if the player's position and every adversary's position are
passable before a tick, they are still passable after it — the tick
only ever commits destinations for which `IsValidPosition` is true and
otherwise leaves an entity in place, and the only board mutation turns
a dot into an empty cell. -/
theorem tick_preserves_passable (game : Game) (rands : Nat → GhostRand)
    (now : Nat)
    (hp : game.IsValidPosition game.player GameWidth GameHeight = true)
    (hg : ∀ gh ∈ game.ghosts,
      game.IsValidPosition gh.position GameWidth GameHeight = true) :
    (gameTick game rands now).1.IsValidPosition
      (gameTick game rands now).1.player GameWidth GameHeight = true ∧
    ∀ gh ∈ (gameTick game rands now).1.ghosts,
      (gameTick game rands now).1.IsValidPosition gh.position
        GameWidth GameHeight = true := by
  unfold gameTick
  split
  · exact ⟨hp, hg⟩
  · dsimp only
    constructor
    · show isPassable
        (checkCollisions (moveGhosts (movePlayer game) rands)).board
        (checkCollisions (moveGhosts (movePlayer game) rands)).player
        GameWidth GameHeight = true
      rw [checkCollisions_board, checkCollisions_player, moveGhosts_board,
        moveGhosts_player]
      exact movePlayer_player_passable game hp
    · show ∀ gh ∈ (checkCollisions (moveGhosts (movePlayer game) rands)).ghosts,
        isPassable (checkCollisions (moveGhosts (movePlayer game) rands)).board
          gh.position GameWidth GameHeight = true
      rw [checkCollisions_ghosts, checkCollisions_board, moveGhosts_board]
      intro gh hgh
      exact moveGhostsAux_passable (movePlayer game).board
        (movePlayer game).player rands 0 (movePlayer game).ghosts
        (by
          intro gh2 hm
          rw [movePlayer_ghosts] at hm
          exact movePlayer_board_passable game gh2.position (hg gh2 hm))
        gh hgh

/-- A live session with one adversary adjacent to the player. -/
def adjacentGhostGame : Game :=
  { id := "s3", board := oneDotBoard, player := { x := 1, y := 1 },
    ghosts := [{ position := { x := 2, y := 1 }, direction := Direction.left }],
    score := 0, dotsLeft := 1, gameOver := false,
    playerDir := Direction.none, createdAt := 0, updatedAt := 0 }

/-- C10 witness: on the concrete session with a passable player and a
passable adversary, the tick keeps both passable. -/
theorem tick_preserves_passable_witness :
    (gameTick adjacentGhostGame (fun _ => chaseRand) 7).1.IsValidPosition
      (gameTick adjacentGhostGame (fun _ => chaseRand) 7).1.player
      GameWidth GameHeight = true ∧
    ∀ gh ∈ (gameTick adjacentGhostGame (fun _ => chaseRand) 7).1.ghosts,
      (gameTick adjacentGhostGame (fun _ => chaseRand) 7).1.IsValidPosition
        gh.position GameWidth GameHeight = true :=
  tick_preserves_passable adjacentGhostGame (fun _ => chaseRand) 7
    (by decide) (by decide)

end GoApp
